import Mathlib

/-!
Verification of the selfservices frontend wrapper layer.

Shallow embedding of the claim-relevant parts of the repository:
the users NgRx store (state, actions, reducer), the BaseApiService
URL builder, the Keycloak service wrapper, the role guard, the
toast-notification service and the error-logging ring buffer.
Strings that the source manipulates character-by-character (URL
paths) are embedded as `List Char`; asynchronous provider calls are
embedded as `Except`-valued outcomes passed in as parameters.
-/

/-! ## Users feature store (users.state.ts / users.actions.ts / users.reducer.ts) -/

structure User where
  id : String
  name : String
  email : String
deriving DecidableEq, Repr

structure UsersState where
  users : List User
  selectedUserId : Option String
  isLoading : Bool
  error : Option String
deriving DecidableEq, Repr

def initialUsersState : UsersState :=
  { users := [], selectedUserId := none, isLoading := false, error := none }

inductive UsersAction where
  | loadUsers
  | loadUsersSuccess (users : List User)
  | loadUsersFailure (error : String)
  | selectUser (userId : String)
  | clearSelection
  | addUser (user : User)
  | addUserSuccess (user : User)
  | addUserFailure (error : String)
  | updateUser (user : User)
  | updateUserSuccess (user : User)
  | updateUserFailure (error : String)
  | deleteUser (userId : String)
  | deleteUserSuccess (userId : String)
  | deleteUserFailure (error : String)
deriving DecidableEq, Repr

def usersReducer (state : UsersState) (action : UsersAction) : UsersState :=
  match action with
  | .loadUsers => { state with isLoading := true, error := none }
  | .loadUsersSuccess users =>
      { state with users := users, isLoading := false, error := none }
  | .loadUsersFailure e => { state with isLoading := false, error := some e }
  | .selectUser userId => { state with selectedUserId := some userId }
  | .clearSelection => { state with selectedUserId := none }
  | .addUser _ => { state with isLoading := true, error := none }
  | .addUserSuccess user =>
      { state with users := state.users ++ [user], isLoading := false }
  | .addUserFailure e => { state with isLoading := false, error := some e }
  | .updateUser _ => { state with isLoading := true, error := none }
  | .updateUserSuccess user =>
      { state with
          users := state.users.map (fun u => if u.id == user.id then user else u),
          isLoading := false }
  | .updateUserFailure e => { state with isLoading := false, error := some e }
  | .deleteUser _ =>
      { state with isLoading := true, error := none }
  | .deleteUserSuccess userId =>
      { state with
          users := state.users.filter (fun u => u.id != userId),
          selectedUserId :=
            if state.selectedUserId == some userId then none else state.selectedUserId,
          isLoading := false }
  | .deleteUserFailure e => { state with isLoading := false, error := some e }

/-! ## BaseApiService.buildUrl (api-endpoints.ts, second file section)

URL paths are embedded as `List Char`; `strStartsWith s p` is the
source's `s.startsWith(p)`. -/

def strStartsWith (s pre : List Char) : Bool := pre.isPrefixOf s

def schemePrefixed (endpoint : List Char) : Bool :=
  strStartsWith endpoint ("http://".toList) || strStartsWith endpoint ("https://".toList)

def normalizeEndpoint (endpoint : List Char) : List Char :=
  if strStartsWith endpoint ['/'] then endpoint else '/' :: endpoint

def buildUrl (baseUrl endpoint : List Char) : List Char :=
  if schemePrefixed endpoint then endpoint
  else baseUrl ++ normalizeEndpoint endpoint


/-! ## KeycloakService (keycloak.service.ts)

The asynchronous provider (keycloak-js) is embedded by passing the
outcome of each provider call as an `Except String` parameter: `.ok v`
models a resolved promise, `.error e` a rejection or thrown error.
`instancePresent` models `this.keycloakInstance` being defined.
The session is the pair of BehaviorSubjects (isAuthenticated, user);
the user profile record is abbreviated to its id, since only the
success/failure structure of profile loading is relevant here. -/

structure SessionState where
  isAuthenticated : Bool
  user : Option String
deriving DecidableEq, Repr

/-- Result of `updateToken`: the returned (or thrown) value, the session
afterwards, and traces counting provider refresh attempts and `logout()`
invocations. -/
structure KcUpdateResult where
  returned : Except String Bool
  session : SessionState
  refreshAttempts : Nat
  logoutCalls : Nat
deriving Repr

/-- `logout()` synchronously clears both subjects before delegating to the
provider redirect. -/
def kcLogoutLocal (_st : SessionState) : SessionState :=
  { isAuthenticated := false, user := none }

/-- `updateToken(minValidity)`: try { await keycloak.updateToken; return true }
catch { console.error; this.logout(); return false }; returns false without a
refresh attempt when the instance is missing. -/
def kcUpdateToken (instancePresent : Bool) (refreshOutcome : Except String Bool)
    (st : SessionState) : KcUpdateResult :=
  if instancePresent then
    match refreshOutcome with
    | .ok _refreshed => { returned := .ok true, session := st, refreshAttempts := 1, logoutCalls := 0 }
    | .error _ =>
        { returned := .ok false, session := kcLogoutLocal st,
          refreshAttempts := 1, logoutCalls := 1 }
  else
    { returned := .ok false, session := st, refreshAttempts := 0, logoutCalls := 0 }

/-- `init()`: the whole body is wrapped in try/catch; a provider failure is
logged and converted to `false`. -/
def kcInit (providerInit : Except String Bool) : Except String Bool :=
  match providerInit with
  | .ok authenticated => .ok authenticated
  | .error _ => .ok false

/-- `login(redirectUri)`: throws when uninitialized, otherwise returns the
provider promise with no catch attached. -/
def kcLogin (instancePresent : Bool) (providerLogin : Except String Unit) :
    Except String Unit :=
  if instancePresent then providerLogin
  else .error ("Keycloak not initialized")

/-- `logout(redirectUri)`: throws when uninitialized; otherwise clears both
subjects and returns the provider promise with no catch attached. -/
def kcLogout (instancePresent : Bool) (providerLogout : Except String Unit)
    (st : SessionState) : Except String Unit × SessionState :=
  if instancePresent then (providerLogout, { isAuthenticated := false, user := none })
  else (.error ("Keycloak not initialized"), st)

/-- `loadUserProfile()`: try { profile := await provider; push user } catch
{ console.error } — always resolves. -/
def kcLoadUserProfile (instancePresent : Bool) (profileOutcome : Except String String)
    (st : SessionState) : Except String Unit × SessionState :=
  if instancePresent then
    match profileOutcome with
    | .ok profileId => (.ok (), { st with user := some profileId })
    | .error _ => (.ok (), st)
  else (.ok (), st)

/-- `isLoggedIn()`: `this.keycloakInstance?.authenticated ?? false`. -/
def isLoggedIn (instancePresent authenticated : Bool) : Bool :=
  if instancePresent then authenticated else false

/-- `hasRole(role)`: false when uninitialized, else
`keycloak.hasRealmRole(role)`, a membership test on the realm-role list of
the parsed token. -/
def kcHasRole (instancePresent : Bool) (realmRoles : List String) (role : String) : Bool :=
  if instancePresent then realmRoles.contains role else false

/-- `hasAnyRole(roles)`: `roles.some((role) => this.hasRole(role))`. -/
def kcHasAnyRole (instancePresent : Bool) (realmRoles roles : List String) : Bool :=
  roles.any (kcHasRole instancePresent realmRoles)

/-- `hasAllRoles(roles)`: `roles.every((role) => this.hasRole(role))`. -/
def kcHasAllRoles (instancePresent : Bool) (realmRoles roles : List String) : Bool :=
  roles.all (kcHasRole instancePresent realmRoles)

/-- `getUserRoles()`: `tokenParsed` is `none` when the instance or its parsed
token is missing; the inner option models `realm_access` being absent. -/
def kcGetUserRoles (tokenParsed : Option (Option (List String))) : List String :=
  match tokenParsed with
  | some (some roles) => roles
  | some none => []
  | none => []

/-! ## roleGuard (role.guard.ts) -/

/-- Route metadata: `data['roles']` (undefined or a string list) and
`data['requireAll']` (compared with `=== true` by the guard). -/
structure RouteData where
  roles : Option (List String)
  requireAll : Option Bool
deriving DecidableEq, Repr

inductive GuardResult where
  | allow
  | redirectToLogin
  | redirectToUnauthorized
deriving DecidableEq, Repr

def roleGuard (instancePresent authenticated : Bool) (realmRoles : List String)
    (data : RouteData) : GuardResult :=
  if !(isLoggedIn instancePresent authenticated) then .redirectToLogin
  else
    match data.roles with
    | none => .allow
    | some requiredRoles =>
        if requiredRoles.length == 0 then .allow
        else
          let requireAll := data.requireAll == some true
          let hasAccess :=
            if requireAll then kcHasAllRoles instancePresent realmRoles requiredRoles
            else kcHasAnyRole instancePresent realmRoles requiredRoles
          if !hasAccess then .redirectToUnauthorized else .allow


/-! ## ToastService (notification.model.ts / toast.service.ts)

Durations are embedded as rationals (JS numbers; the only arithmetic
performed on them is halving). The `setTimeout` handle table is the
`timeoutMap` function; `cancelled` is a trace of the global
`clearTimeout(handle)` calls the service makes, recorded together with
the map key they were made for; `nextHandle` supplies fresh positive
timer handles. The notification id and timestamp are inputs of
`showToast` because the source draws them from `Date.now()` and
`Math.random()`. The optional action callback is not representable and
is omitted; no claim mentions it. -/

inductive NotificationType where
  | success
  | error
  | warning
  | info
deriving DecidableEq, Repr

inductive NotificationPosition where
  | topRight
  | topLeft
  | topCenter
  | bottomRight
  | bottomLeft
  | bottomCenter
deriving DecidableEq, Repr

structure Notification where
  id : String
  type : NotificationType
  title : Option String
  message : String
  duration : ℚ
  dismissible : Bool
  timestamp : Nat
deriving DecidableEq, Repr

structure ToastConfig where
  position : NotificationPosition
  maxToasts : Nat
  defaultDuration : ℚ
  pauseOnHover : Bool
deriving DecidableEq, Repr

def DEFAULT_TOAST_CONFIG : ToastConfig :=
  { position := .topRight, maxToasts := 5, defaultDuration := 5000, pauseOnHover := true }

structure Timer where
  handle : Nat
  delay : ℚ
deriving DecidableEq, Repr

structure ToastState where
  notifications : List Notification
  timeoutMap : String → Option Timer
  cancelled : List (String × Nat)
  nextHandle : Nat

def initialToastState : ToastState :=
  { notifications := [], timeoutMap := fun _ => none, cancelled := [], nextHandle := 1 }

/-- `clearTimeout(id)` (the private method): look the id up in the map; on a
hit, cancel the handle and delete the entry. -/
def clearToastTimeout (id : String) (st : ToastState) : ToastState :=
  match st.timeoutMap id with
  | some t =>
      { st with
          timeoutMap := fun x => if x = id then none else st.timeoutMap x,
          cancelled := st.cancelled ++ [(id, t.handle)] }
  | none => st

/-- `scheduleRemoval(id, duration)`: `setTimeout` then `timeoutMap.set`. -/
def scheduleRemoval (id : String) (duration : ℚ) (st : ToastState) : ToastState :=
  { st with
      timeoutMap := fun x => if x = id then some { handle := st.nextHandle, delay := duration } else st.timeoutMap x,
      nextHandle := st.nextHandle + 1 }

/-- Input of one `show(type, message, options)` call, together with the
generated id and the `Date.now()` timestamp. -/
structure ShowReq where
  id : String
  type : NotificationType
  message : String
  title : Option String
  durationOpt : Option ℚ
  dismissibleOpt : Option Bool
  timestamp : Nat
deriving DecidableEq, Repr

/-- The notification record `show` constructs. -/
def toNotif (cfg : ToastConfig) (r : ShowReq) : Notification :=
  { id := r.id, type := r.type, message := r.message, title := r.title,
    duration := r.durationOpt.getD cfg.defaultDuration,
    dismissible := r.dismissibleOpt.getD true,
    timestamp := r.timestamp }

/-- The truncation step of the `show` update callback: when the list
exceeds `maxToasts`, pop the last (oldest) record and cancel its timer. -/
def capToasts (cfg : ToastConfig) (st : ToastState) : ToastState :=
  if cfg.maxToasts < st.notifications.length then
    match st.notifications.getLast? with
    | some removed =>
        clearToastTimeout removed.id { st with notifications := st.notifications.dropLast }
    | none => st
  else st

/-- `show`: prepend the record, pop the tail (cancelling its timer) when over
capacity, then schedule removal when the effective duration is positive. -/
def showToast (cfg : ToastConfig) (r : ShowReq) (st : ToastState) : ToastState :=
  if 0 < (toNotif cfg r).duration then
    scheduleRemoval (toNotif cfg r).id (toNotif cfg r).duration
      (capToasts cfg { st with notifications := toNotif cfg r :: st.notifications })
  else capToasts cfg { st with notifications := toNotif cfg r :: st.notifications }

def showAll (cfg : ToastConfig) (reqs : List ShowReq) (st : ToastState) : ToastState :=
  reqs.foldl (fun s r => showToast cfg r s) st

/-- `dismiss(id)`: cancel the timer, filter the record out. -/
def dismissToast (id : String) (st : ToastState) : ToastState :=
  let st1 := clearToastTimeout id st
  { st1 with notifications := st1.notifications.filter (fun n => n.id != id) }

/-- `pause(id)`: just cancels the timer. -/
def pauseToast (id : String) (st : ToastState) : ToastState :=
  clearToastTimeout id st

/-- `resume(id)`: reschedule with half the original duration. -/
def resumeToast (id : String) (st : ToastState) : ToastState :=
  match st.notifications.find? (fun n => n.id == id) with
  | some notification =>
      if 0 < notification.duration then scheduleRemoval id (notification.duration / 2) st
      else st
  | none => st


/-! ## ErrorLoggingService buffer (error.model.ts / error-logging.service.ts) -/

inductive ErrorCategory where
  | network
  | authn
  | authz
  | validationErr
  | server
  | client
  | unknown
deriving DecidableEq, Repr

inductive ErrorSeverity where
  | info
  | warning
  | error
  | critical
deriving DecidableEq, Repr

structure AppError where
  id : String
  code : String
  message : String
  userMessage : String
  category : ErrorCategory
  severity : ErrorSeverity
  timestamp : Nat
deriving DecidableEq, Repr

structure ErrorLogEntry where
  error : AppError
  userAgent : Option String
deriving DecidableEq, Repr

def maxBufferSize : Nat := 100

/-- `addToBuffer(entry)`: push, then shift (drop the oldest) when the buffer
exceeds `maxBufferSize`. -/
def addToBuffer (buffer : List ErrorLogEntry) (entry : ErrorLogEntry) : List ErrorLogEntry :=
  let buffer1 := buffer ++ [entry]
  if maxBufferSize < buffer1.length then buffer1.tail else buffer1

/-- The buffer after a sequence of `log()` calls starting from the empty
buffer (the hook loop does not touch the buffer). -/
def logAll (entries : List ErrorLogEntry) : List ErrorLogEntry :=
  entries.foldl addToBuffer []

/-- Demonstration state for the pause/resume property: one notification
with id "a" and duration 5000, no pending timer. -/
def pauseResumeDemoState : ToastState :=
  { notifications :=
      [{ id := "a", type := .info, title := none, message := "m",
         duration := 5000, dismissible := true, timestamp := 0 }],
    timeoutMap := fun _ => none, cancelled := [], nextHandle := 1 }

/-- Invariant describing the toast state after the requests `pre` have been
shown from the empty state without yet reaching an eviction: the list holds
the shown records newest first, the timeout map has an entry exactly for the
shown ids, and no timer has been cancelled. -/
def FillInv (cfg : ToastConfig) (pre : List ShowReq) (s : ToastState) : Prop :=
  s.notifications = (pre.map (toNotif cfg)).reverse ∧
  (∀ id, (s.timeoutMap id).isSome = true ↔ id ∈ pre.map ShowReq.id) ∧
  s.cancelled = []

/-- Demonstration config for the capacity property: capacity 2. -/
def demoToastConfig : ToastConfig :=
  { position := .topRight, maxToasts := 2, defaultDuration := 5000, pauseOnHover := true }

/-- Demonstration show requests with distinct ids and default duration. -/
def demoReqA : ShowReq :=
  { id := "a", type := .info, message := "m", title := none,
    durationOpt := none, dismissibleOpt := none, timestamp := 0 }

def demoReqB : ShowReq :=
  { id := "b", type := .info, message := "m", title := none,
    durationOpt := none, dismissibleOpt := none, timestamp := 1 }

def demoReqC : ShowReq :=
  { id := "c", type := .info, message := "m", title := none,
    durationOpt := none, dismissibleOpt := none, timestamp := 2 }

/-! ## Theorems -/

/-- C1 counterexample. The claim says dispatching `deleteUser` with userId
"1" removes the user with id "1" from the list in the reducer transition for
`deleteUser` itself. It does not: starting from a state whose list holds
exactly the user with id "1", the `deleteUser` transition keeps that user in
the list (it only sets `isLoading` and clears `error`), and a following
`deleteUserFailure` also leaves the record in place. -/
theorem usersReducer_deleteUser_not_optimistic_counterexample :
  (⟨"1", "John Doe", "john@example.com"⟩ : User) ∈
    (usersReducer
      { users := [⟨"1", "John Doe", "john@example.com"⟩],
        selectedUserId := none, isLoading := false, error := none }
      (.deleteUser "1")).users ∧
  (usersReducer
      { users := [⟨"1", "John Doe", "john@example.com"⟩],
        selectedUserId := none, isLoading := false, error := none }
      (.deleteUser "1")) =
    { users := [⟨"1", "John Doe", "john@example.com"⟩],
      selectedUserId := none, isLoading := true, error := none } ∧
  (usersReducer
      (usersReducer
        { users := [⟨"1", "John Doe", "john@example.com"⟩],
          selectedUserId := none, isLoading := false, error := none }
        (.deleteUser "1"))
      (.deleteUserFailure "Delete failed")).users =
    [⟨"1", "John Doe", "john@example.com"⟩] := by
  refine ⟨?_, rfl, rfl⟩
  decide

/-- C1 amended. Deletion in the users store is pessimistic, not optimistic:
the `deleteUser` transition leaves the users list unchanged and only sets
`isLoading := true` and `error := null`; the record is removed from the list
only by the `deleteUserSuccess` transition; on `deleteUserFailure` nothing
is re-inserted — the list is unchanged (the record was never removed) — and
`error` is set to the dispatched non-null string. -/
theorem usersReducer_delete_pessimistic (st : UsersState) (userId err : String) :
  usersReducer st (.deleteUser userId) =
    { st with isLoading := true, error := none } ∧
  usersReducer st (.deleteUserFailure err) =
    { st with isLoading := false, error := some err } ∧
  (usersReducer st (.deleteUserSuccess userId)).users =
    st.users.filter (fun u => u.id != userId) :=
  ⟨rfl, rfl, rfl⟩

/-- C2 counterexample. The claim says `normalize` guarantees the endpoint
part begins with exactly one leading slash, so the built URL never has
multiple slashes between the base URL and the path. For the non-scheme path
"//a" the normalized endpoint is "//a" itself, which begins with two
slashes, and `buildUrl` returns the base followed by "//a". -/
theorem buildUrl_doubleSlash_counterexample :
  schemePrefixed ("//a".toList) = false ∧
  normalizeEndpoint ("//a".toList) = "//a".toList ∧
  strStartsWith (normalizeEndpoint ("//a".toList)) ['/', '/'] = true ∧
  buildUrl ("http://h".toList) ("//a".toList) =
    ("http://h".toList) ++ normalizeEndpoint ("//a".toList) := by
  refine ⟨rfl, rfl, rfl, ?_⟩
  decide

/-- C2 amended. For every path p that does not start with a scheme prefix,
`buildUrl(p)` returns base ++ normalize(p), where normalize guarantees the
endpoint part begins with at least one leading slash: it prepends "/" when
missing and returns the path unchanged otherwise, so multiple leading
slashes already present in the path are preserved. -/
theorem buildUrl_normalizes (baseUrl endpoint : List Char)
    (h : schemePrefixed endpoint = false) :
  buildUrl baseUrl endpoint = baseUrl ++ normalizeEndpoint endpoint ∧
  strStartsWith (normalizeEndpoint endpoint) ['/'] = true := by
  constructor
  · simp [buildUrl, h]
  · rw [normalizeEndpoint]
    by_cases hs : strStartsWith endpoint ['/'] = true
    · rw [if_pos hs]; exact hs
    · rw [if_neg hs]
      simp [strStartsWith, List.isPrefixOf]

/-- C2 amended, witness at base "http://h" and path "users". -/
theorem buildUrl_normalizes_witness :
  schemePrefixed ("users".toList) = false ∧
  (buildUrl ("http://h".toList) ("users".toList) =
      ("http://h".toList) ++ normalizeEndpoint ("users".toList) ∧
    strStartsWith (normalizeEndpoint ("users".toList)) ['/'] = true) :=
  ⟨by decide, buildUrl_normalizes ("http://h".toList) ("users".toList) (by decide)⟩

/-- C4. When the underlying provider refresh call rejects (and the instance
is present, so a refresh is actually attempted), `updateToken` returns false
rather than throwing, the session is transitioned to unauthenticated,
`logout()` is invoked exactly once, and exactly one refresh attempt is made
(no retry). -/
theorem updateToken_fail_closed (st : SessionState) (e : String) :
  kcUpdateToken true (.error e) st =
    { returned := .ok false,
      session := { isAuthenticated := false, user := none },
      refreshAttempts := 1, logoutCalls := 1 } :=
  rfl

/-- C7 counterexample. The claim says no identity-provider error ever
escapes a KeycloakService method. But `login` and `logout` attach no catch
to the provider promise: a provider rejection with message "network error"
escapes both methods unchanged. -/
theorem keycloak_login_logout_propagate_counterexample :
  kcLogin true (.error "network error") = .error "network error" ∧
  (kcLogout true (.error "network error")
      { isAuthenticated := true, user := some "u" }).1 = .error "network error" :=
  ⟨rfl, rfl⟩

/-- C7 amended. Failures inside `init`, `updateToken` and profile loading
are caught and converted to safe defaults (`false` for init and updateToken,
a no-op resolve for profile loading), and the role checks and
`getUserRoles` return `false` / the empty list when the provider is
uninitialized; but `login` and `logout` are not guarded: a provider
rejection escapes them to the caller unchanged (and both throw
synchronously when Keycloak is uninitialized). -/
theorem keycloak_error_handling_amended (e : String) (st : SessionState)
    (realmRoles : List String) (role : String) :
  kcInit (.error e) = .ok false ∧
  (kcUpdateToken true (.error e) st).returned = .ok false ∧
  (kcLoadUserProfile true (.error e) st).1 = .ok () ∧
  kcLogin true (.error e) = .error e ∧
  (kcLogout true (.error e) st).1 = .error e ∧
  kcLogin false (.ok ()) = .error ("Keycloak not initialized") ∧
  kcHasRole false realmRoles role = false ∧
  kcGetUserRoles none = [] :=
  ⟨rfl, rfl, rfl, rfl, rfl, rfl, rfl, rfl⟩

/-- C10. For an authenticated user, a route whose metadata declares no
`roles` entry, or an empty required-role list, is allowed by the role guard
whatever the user's realm roles are. -/
theorem roleGuard_no_required_roles_allows (realmRoles : List String) (ra : Option Bool) :
  roleGuard true true realmRoles { roles := none, requireAll := ra } = .allow ∧
  roleGuard true true realmRoles { roles := some [], requireAll := ra } = .allow :=
  ⟨rfl, rfl⟩

/-- C3. For an authenticated user (the instance is present and reports
authenticated) and a route declaring a non-empty required-role list, the
role guard allows access under ANY semantics (`requireAll` anything but
`true`) exactly when at least one required role is among the user's realm
roles, and under ALL semantics (`requireAll === true`) exactly when every
required role is among the user's realm roles. -/
theorem roleGuard_any_all_semantics (realmRoles requiredRoles : List String)
    (ra : Option Bool) (hne : requiredRoles ≠ []) :
  (ra ≠ some true →
    (roleGuard true true realmRoles { roles := some requiredRoles, requireAll := ra } = .allow ↔
      ∃ r ∈ requiredRoles, r ∈ realmRoles)) ∧
  (roleGuard true true realmRoles { roles := some requiredRoles, requireAll := some true } = .allow ↔
    ∀ r ∈ requiredRoles, r ∈ realmRoles) := by
  have hlen : (requiredRoles.length == 0) = false := by
    simp [List.length_eq_zero, hne]
  constructor
  · intro hra
    have h2 : (ra == some true) = false := by
      simp only [beq_eq_false_iff_ne, ne_eq]
      exact hra
    simp [roleGuard, isLoggedIn, hlen, h2, kcHasAnyRole, kcHasRole, List.any_eq_true,
      List.elem_iff, List.contains]
  · simp [roleGuard, isLoggedIn, hlen, kcHasAllRoles, kcHasRole, List.all_eq_true,
      List.elem_iff, List.contains]

/-- C3 witness, at required roles {A, B}, user realm roles {B}, and the two
`requireAll` shapes of the claim. -/
theorem roleGuard_any_all_semantics_witness :
  (["A", "B"] : List String) ≠ [] ∧
  (((none : Option Bool) ≠ some true →
    (roleGuard true true ["B"] { roles := some ["A", "B"], requireAll := none } = .allow ↔
      ∃ r ∈ (["A", "B"] : List String), r ∈ (["B"] : List String))) ∧
  (roleGuard true true ["B"] { roles := some ["A", "B"], requireAll := some true } = .allow ↔
    ∀ r ∈ (["A", "B"] : List String), r ∈ (["B"] : List String))) :=
  ⟨by decide, roleGuard_any_all_semantics ["B"] ["A", "B"] none (by decide)⟩

/-- C9. `dismiss(id)` is idempotent: a second dismissal of the same id
leaves the notification list, the timeout map, the cancellation trace and
the handle counter exactly as the first left them. -/
theorem dismiss_idempotent (id : String) (st : ToastState) :
  dismissToast id (dismissToast id st) = dismissToast id st := by
  have hnone : (dismissToast id st).timeoutMap id = none := by
    unfold dismissToast clearToastTimeout
    cases h : st.timeoutMap id <;> simp [h]
  have hclear : clearToastTimeout id (dismissToast id st) = dismissToast id st := by
    unfold clearToastTimeout
    rw [hnone]
  have hfilter : (dismissToast id st).notifications.filter (fun n => n.id != id) =
      (dismissToast id st).notifications := by
    show ((clearToastTimeout id st).notifications.filter (fun n => n.id != id)).filter
        (fun n => n.id != id) =
      (clearToastTimeout id st).notifications.filter (fun n => n.id != id)
    simp [List.filter_filter]
  calc dismissToast id (dismissToast id st)
      = { clearToastTimeout id (dismissToast id st) with
          notifications :=
            (clearToastTimeout id (dismissToast id st)).notifications.filter
              (fun n => n.id != id) } := rfl
    _ = { dismissToast id st with
          notifications := (dismissToast id st).notifications.filter (fun n => n.id != id) } := by
        rw [hclear]
    _ = dismissToast id st := by rw [hfilter]

/-- C6. For a notification with positive duration, `pause(id)` cancels its
pending removal timer (nothing for its id remains in the timeout map), and a
following `resume(id)` schedules a fresh removal timer whose delay is
exactly half the notification's original duration, not the true remaining
time. -/
theorem toast_pause_resume_half (st : ToastState) (id : String) (n : Notification)
    (hfind : st.notifications.find? (fun m => m.id == id) = some n)
    (hdur : 0 < n.duration) :
  (pauseToast id st).timeoutMap id = none ∧
  (resumeToast id (pauseToast id st)).timeoutMap id =
    some { handle := (pauseToast id st).nextHandle, delay := n.duration / 2 } := by
  have hpn : (pauseToast id st).timeoutMap id = none := by
    unfold pauseToast clearToastTimeout
    cases h : st.timeoutMap id <;> simp [h]
  have hnotifs : (pauseToast id st).notifications = st.notifications := by
    unfold pauseToast clearToastTimeout
    cases h : st.timeoutMap id <;> simp [h]
  refine ⟨hpn, ?_⟩
  unfold resumeToast
  rw [hnotifs, hfind]
  show (if 0 < n.duration then scheduleRemoval id (n.duration / 2) (pauseToast id st)
      else pauseToast id st).timeoutMap id =
    some { handle := (pauseToast id st).nextHandle, delay := n.duration / 2 }
  rw [if_pos hdur]
  unfold scheduleRemoval
  simp

/-- C6 witness: after pause and resume of id "a" the rescheduled delay is
5000 / 2. -/
theorem toast_pause_resume_half_witness :
  pauseResumeDemoState.notifications.find? (fun m => m.id == "a") =
    some { id := "a", type := .info, title := none, message := "m",
           duration := 5000, dismissible := true, timestamp := 0 } ∧
  (0 : ℚ) < 5000 ∧
  ((pauseToast "a" pauseResumeDemoState).timeoutMap "a" = none ∧
    (resumeToast "a" (pauseToast "a" pauseResumeDemoState)).timeoutMap "a" =
      some { handle := (pauseToast "a" pauseResumeDemoState).nextHandle,
             delay := (5000 : ℚ) / 2 }) :=
  ⟨rfl, by decide, toast_pause_resume_half pauseResumeDemoState "a" _ rfl (by decide)⟩

/-- Helper: one `addToBuffer` step keeps the buffer within capacity. -/
theorem addToBuffer_length_le (b : List ErrorLogEntry) (e : ErrorLogEntry)
    (hb : b.length ≤ maxBufferSize) : (addToBuffer b e).length ≤ maxBufferSize := by
  unfold addToBuffer
  by_cases h : maxBufferSize < (b ++ [e]).length
  · rw [if_pos h]
    simp only [List.length_tail, List.length_append, List.length_singleton]
    omega
  · rw [if_neg h]
    omega

/-- Helper: folding `addToBuffer` keeps the buffer within capacity. -/
theorem foldl_addToBuffer_length_le (entries : List ErrorLogEntry) :
    ∀ b : List ErrorLogEntry, b.length ≤ maxBufferSize →
      (entries.foldl addToBuffer b).length ≤ maxBufferSize := by
  induction entries with
  | nil => intro b hb; simpa using hb
  | cons e es ih => intro b hb; exact ih _ (addToBuffer_length_le b e hb)

/-- C8. The error log buffer is a bounded FIFO ring of capacity 100: the
buffer reached by any sequence of `log()` calls holds at most
`maxBufferSize` = 100 entries, and a `log()` on a full buffer evicts exactly
the single oldest entry from the front while the new entry is appended at
the back. -/
theorem errorBuffer_ring (entries : List ErrorLogEntry) (b : List ErrorLogEntry)
    (e : ErrorLogEntry) (hb : b.length = maxBufferSize) :
  (logAll entries).length ≤ maxBufferSize ∧
  addToBuffer b e = b.tail ++ [e] := by
  constructor
  · exact foldl_addToBuffer_length_le entries [] (by simp)
  · unfold addToBuffer
    have hlt : maxBufferSize < (b ++ [e]).length := by
      simp [hb]
    rw [if_pos hlt]
    cases b with
    | nil => simp [maxBufferSize] at hb
    | cons x xs => simp

/-- C8 witness: a full buffer of 100 identical entries; logging once more
evicts the oldest. -/
theorem errorBuffer_ring_witness :
  (List.replicate 100
      ({ error := { id := "e1", code := "C", message := "m", userMessage := "u",
                    category := .unknown, severity := .error, timestamp := 0 },
         userAgent := none } : ErrorLogEntry)).length = maxBufferSize ∧
  ((logAll []).length ≤ maxBufferSize ∧
    addToBuffer
        (List.replicate 100
          ({ error := { id := "e1", code := "C", message := "m", userMessage := "u",
                        category := .unknown, severity := .error, timestamp := 0 },
             userAgent := none } : ErrorLogEntry))
        { error := { id := "e1", code := "C", message := "m", userMessage := "u",
                     category := .unknown, severity := .error, timestamp := 0 },
          userAgent := none } =
      (List.replicate 100
        ({ error := { id := "e1", code := "C", message := "m", userMessage := "u",
                      category := .unknown, severity := .error, timestamp := 0 },
           userAgent := none } : ErrorLogEntry)).tail ++
        [{ error := { id := "e1", code := "C", message := "m", userMessage := "u",
                      category := .unknown, severity := .error, timestamp := 0 },
           userAgent := none }]) :=
  ⟨rfl, errorBuffer_ring [] _ _ rfl⟩

/-- Helper: `show` below capacity just prepends and (for a positive
duration) schedules. -/
theorem showToast_eq_not_full (cfg : ToastConfig) (r : ShowReq) (s : ToastState)
    (h : ¬ cfg.maxToasts < s.notifications.length + 1) :
  showToast cfg r s =
    (if 0 < (toNotif cfg r).duration then
      scheduleRemoval (toNotif cfg r).id (toNotif cfg r).duration
        { s with notifications := toNotif cfg r :: s.notifications }
     else { s with notifications := toNotif cfg r :: s.notifications }) := by
  have hcap : capToasts cfg { s with notifications := toNotif cfg r :: s.notifications } =
      { s with notifications := toNotif cfg r :: s.notifications } := by
    unfold capToasts
    simp only [List.length_cons]
    rw [if_neg h]
  unfold showToast
  rw [hcap]

/-- Helper: `show` at capacity pops the tail record, cancels its timer and
schedules the new one. -/
theorem showToast_eq_full (cfg : ToastConfig) (r : ShowReq) (s : ToastState)
    (l : List Notification) (x : Notification)
    (hs : s.notifications = l ++ [x])
    (hfull : cfg.maxToasts < l.length + 2)
    (hd : 0 < (toNotif cfg r).duration) :
  showToast cfg r s =
    scheduleRemoval (toNotif cfg r).id (toNotif cfg r).duration
      (clearToastTimeout x.id { s with notifications := toNotif cfg r :: l }) := by
  have hcap : capToasts cfg { s with notifications := toNotif cfg r :: s.notifications } =
      clearToastTimeout x.id { s with notifications := toNotif cfg r :: l } := by
    unfold capToasts
    rw [hs]
    have hcons : toNotif cfg r :: (l ++ [x]) = (toNotif cfg r :: l) ++ [x] := by simp
    rw [show ({ s with notifications := toNotif cfg r :: (l ++ [x]) } : ToastState).notifications
        = (toNotif cfg r :: l) ++ [x] from by simp]
    rw [List.getLast?_concat, List.dropLast_concat]
    have hlen : cfg.maxToasts < ((toNotif cfg r :: l) ++ [x]).length := by
      simp only [List.length_append, List.length_cons, List.length_singleton]
      omega
    rw [if_pos hlen]
  unfold showToast
  rw [hcap, if_pos hd]

/-- Helper: one below-capacity `show` step preserves `FillInv`. -/
theorem fillInv_step (cfg : ToastConfig) (pre : List ShowReq) (r : ShowReq)
    (s : ToastState) (hInv : FillInv cfg pre s)
    (hlen : pre.length + 1 ≤ cfg.maxToasts)
    (hdur : 0 < (toNotif cfg r).duration) :
    FillInv cfg (pre ++ [r]) (showToast cfg r s) := by
  obtain ⟨hnot, hmap, hcan⟩ := hInv
  have hlennot : ¬ cfg.maxToasts < s.notifications.length + 1 := by
    rw [hnot]
    simp only [List.length_reverse, List.length_map]
    omega
  rw [showToast_eq_not_full cfg r s hlennot, if_pos hdur]
  refine ⟨?_, ?_, ?_⟩
  · simp [scheduleRemoval, hnot]
  · intro id
    by_cases hid : id = r.id
    · simp [scheduleRemoval, toNotif, hid]
    · simp only [scheduleRemoval, toNotif]
      simp [hid, hmap id]
  · simp [scheduleRemoval, hcan]

/-- Helper: showing a batch of requests that stays within capacity
preserves `FillInv`. -/
theorem showAll_fill (cfg : ToastConfig) (reqs : List ShowReq) :
    ∀ (pre : List ShowReq) (s : ToastState),
      FillInv cfg pre s →
      pre.length + reqs.length ≤ cfg.maxToasts →
      (∀ r ∈ reqs, 0 < (toNotif cfg r).duration) →
      FillInv cfg (pre ++ reqs) (showAll cfg reqs s) := by
  induction reqs with
  | nil =>
      intro pre s hInv _ _
      simpa [showAll] using hInv
  | cons r rs ih =>
      intro pre s hInv hlen hdur
      have hstep : FillInv cfg (pre ++ [r]) (showToast cfg r s) :=
        fillInv_step cfg pre r s hInv (by simp at hlen; omega)
          (hdur r (by simp))
      have hrest := ih (pre ++ [r]) (showToast cfg r s) hstep
        (by simp at hlen ⊢; omega)
        (fun x hx => hdur x (by simp [hx]))
      have hall : showAll cfg (r :: rs) s = showAll cfg rs (showToast cfg r s) := rfl
      rw [hall]
      simpa using hrest

/-- C5. With configured capacity `maxToasts = N` (the N shows
`first :: mid`, then one more, `last`): after the N+1 `show()` calls from
the empty state, with pairwise-distinct ids and positive effective
durations, exactly N records remain; the evicted record is the oldest
(`first`, removed from the tail of the list, so the list holds exactly
`mid ++ [last]`, newest first); no timer for the evicted id remains in the
timeout map; and the only timer cancellation performed was for the evicted
id. -/
theorem toast_capacity_eviction (cfg : ToastConfig) (first : ShowReq)
    (mid : List ShowReq) (last : ShowReq)
    (hlen : (first :: mid).length = cfg.maxToasts)
    (hnodup : ((first :: (mid ++ [last])).map ShowReq.id).Nodup)
    (hdur : ∀ r ∈ first :: (mid ++ [last]), 0 < (toNotif cfg r).duration) :
  (showAll cfg (first :: (mid ++ [last])) initialToastState).notifications.map Notification.id =
      ((mid ++ [last]).map ShowReq.id).reverse ∧
  (showAll cfg (first :: (mid ++ [last])) initialToastState).notifications.length = cfg.maxToasts ∧
  (showAll cfg (first :: (mid ++ [last])) initialToastState).timeoutMap first.id = none ∧
  (showAll cfg (first :: (mid ++ [last])) initialToastState).cancelled.map Prod.fst = [first.id] := by
  simp only [List.length_cons] at hlen
  have hinit : FillInv cfg [] initialToastState := by
    refine ⟨rfl, ?_, rfl⟩
    intro id
    simp [initialToastState]
  have hfill0 : FillInv cfg ([] ++ (first :: mid))
      (showAll cfg (first :: mid) initialToastState) :=
    showAll_fill cfg (first :: mid) [] initialToastState hinit
      (by simp; omega)
      (fun r hr => hdur r (by simp only [List.mem_cons, List.mem_append] at hr ⊢; tauto))
  have hfill : FillInv cfg (first :: mid) (showAll cfg (first :: mid) initialToastState) := by
    simpa using hfill0
  obtain ⟨hnot, hmap, hcan⟩ := hfill
  have hnot' : (showAll cfg (first :: mid) initialToastState).notifications =
      (mid.map (toNotif cfg)).reverse ++ [toNotif cfg first] := by
    rw [hnot]; simp
  have happ : showAll cfg (first :: (mid ++ [last])) initialToastState =
      showToast cfg last (showAll cfg (first :: mid) initialToastState) := by
    show showAll cfg ((first :: mid) ++ [last]) initialToastState = _
    simp [showAll, List.foldl_append]
  have hfull := showToast_eq_full cfg last (showAll cfg (first :: mid) initialToastState)
    ((mid.map (toNotif cfg)).reverse) (toNotif cfg first) hnot'
    (by simp only [List.length_reverse, List.length_map]; omega)
    (hdur last (by simp))
  have hsome : ((showAll cfg (first :: mid) initialToastState).timeoutMap first.id).isSome = true :=
    (hmap first.id).2 (by simp)
  obtain ⟨t, ht⟩ := Option.isSome_iff_exists.mp hsome
  have hfid : (toNotif cfg first).id = first.id := rfl
  have hclear : clearToastTimeout first.id
      ({ showAll cfg (first :: mid) initialToastState with
          notifications := toNotif cfg last :: (mid.map (toNotif cfg)).reverse } : ToastState) =
      { showAll cfg (first :: mid) initialToastState with
          notifications := toNotif cfg last :: (mid.map (toNotif cfg)).reverse,
          timeoutMap := fun y => if y = first.id then none
            else (showAll cfg (first :: mid) initialToastState).timeoutMap y,
          cancelled := (showAll cfg (first :: mid) initialToastState).cancelled ++
            [(first.id, t.handle)] } := by
    unfold clearToastTimeout
    rw [show ({ showAll cfg (first :: mid) initialToastState with
        notifications := toNotif cfg last :: (mid.map (toNotif cfg)).reverse } :
        ToastState).timeoutMap first.id = some t from ht]
  have hne : first.id ≠ last.id := by
    simp only [List.map_cons, List.nodup_cons] at hnodup
    have hmem : last.id ∈ (mid ++ [last]).map ShowReq.id := by simp
    intro h
    exact hnodup.1 (h ▸ hmem)
  rw [happ, hfull, hfid, hclear]
  refine ⟨?_, ?_, ?_, ?_⟩
  · simp [scheduleRemoval, toNotif, List.map_reverse, List.map_map, Function.comp]
  · simp only [scheduleRemoval, List.length_cons, List.length_reverse, List.length_map]
    omega
  · simp [scheduleRemoval, toNotif, hne]
  · simp [scheduleRemoval, hcan]

/-- C5 witness: capacity 2, three shows with ids "a", "b", "c"; the record
with id "a" is evicted, its timer cancelled, and two records remain. -/
theorem toast_capacity_eviction_witness :
  (demoReqA :: [demoReqB]).length = demoToastConfig.maxToasts ∧
  ((demoReqA :: ([demoReqB] ++ [demoReqC])).map ShowReq.id).Nodup ∧
  (∀ r ∈ demoReqA :: ([demoReqB] ++ [demoReqC]),
    0 < (toNotif demoToastConfig r).duration) ∧
  ((showAll demoToastConfig (demoReqA :: ([demoReqB] ++ [demoReqC]))
        initialToastState).notifications.map Notification.id =
      (([demoReqB] ++ [demoReqC]).map ShowReq.id).reverse ∧
    (showAll demoToastConfig (demoReqA :: ([demoReqB] ++ [demoReqC]))
        initialToastState).notifications.length = demoToastConfig.maxToasts ∧
    (showAll demoToastConfig (demoReqA :: ([demoReqB] ++ [demoReqC]))
        initialToastState).timeoutMap demoReqA.id = none ∧
    (showAll demoToastConfig (demoReqA :: ([demoReqB] ++ [demoReqC]))
        initialToastState).cancelled.map Prod.fst = [demoReqA.id]) :=
  ⟨rfl, by decide, by decide,
    toast_capacity_eviction demoToastConfig demoReqA [demoReqB] demoReqC rfl
      (by decide) (by decide)⟩
